import Mathlib

/-!
Verification of the OSv user-space NVMe I/O queue engine
(`drivers/nvme-user-queue.cc` / `drivers/nvme-user-queue.hh`).

The development shallowly embeds the queue-pair data model and the
operations `advance_sq_tail`, `submit_cmd`, `submit_flush_cmd`,
`map_prps`, `submit_read_write_page_cmd`, `submit_request`,
`advance_cq_head` and `process_completions` as pure Lean functions over
an explicit state record.  C `assert(...)` failures are modelled as
`none` / `Except.error` results; MMIO doorbell writes are modelled as
plain state fields recording the last value stored.  `mmu::virt_to_phys`
is an opaque host service; it is modelled as addition of a fixed
translation offset `phys_delta` (OSv maps the kernel linearly), carried
in the state.  Machine integers are modelled as `Nat`, with an explicit
`% 2^32` where a `u32` computation can wrap.
-/

namespace OsvNvme

/-- NVME_PAGESIZE (= mmu::page_size = 4096). -/
def NVME_PAGESIZE : Nat := 4096

/-- queue_pair::max_pending_levels. -/
def max_pending_levels : Nat := 4

/-- errno ENOTBLK (= 15), returned by submit_request's default branch. -/
def ENOTBLK : Nat := 15

/-- NVMe opcodes (from drivers/nvme-structs.h, which is outside src/;
values are the NVM command-set opcodes of the NVMe specification:
FLUSH = 0x00, WRITE = 0x01, READ = 0x02). -/
def NVME_CMD_FLUSH : Nat := 0

def NVME_CMD_WRITE : Nat := 1

def NVME_CMD_READ : Nat := 2

/-- align_down from osv/align.hh (power-of-two alignment), modelled
arithmetically: largest multiple of `a` that is `≤ x`. -/
def align_down (x a : Nat) : Nat := x - x % a

/-- align_up from osv/align.hh. -/
def align_up (x a : Nat) : Nat := align_down (x + a - 1) a

/-- The NVME_COMMAND enum of nvme_connector.hh.  `other` stands for an
out-of-range integer cast into the enum; it is the value taken by the
`default:` branch of submit_request's switch. -/
inductive NVME_COMMAND where
  | WRITE
  | READ
  | FLUSH
  | other
deriving Repr, DecidableEq

/-- The fields of the 64-byte nvme_sq_entry_t that the user-queue code
writes (common header + rw variant). -/
structure nvme_sq_entry_t where
  opc : Nat := 0
  cid : Nat := 0
  nsid : Nat := 0
  prp1 : Nat := 0
  prp2 : Nat := 0
  slba : Nat := 0
  nlb : Nat := 0
deriving Repr, DecidableEq

/-- The fields of the 16-byte nvme_cq_entry_t read by the reaper:
phase bit `p`, command id `cid`, submission-queue head `sqhd` and
status code `sc`. -/
structure nvme_cq_entry_t where
  p : Nat := 0
  cid : Nat := 0
  sqhd : Nat := 0
  sc : Nat := 0
deriving Repr, DecidableEq

/-- osv_nvme_callback (nvme_connector.hh): callback function pointer
(opaque id, `none` models a null pointer) and opaque argument. -/
structure osv_nvme_callback where
  cb : Option Nat := none
  cb_args : Nat := 0
deriving Repr, DecidableEq

/-- nvme_pending_req (nvme-user-queue.hh): stored callback plus the
optionally owned PRP-list page pointer. -/
structure nvme_pending_req where
  cb : osv_nvme_callback := {}
  prp_list : Option Nat := none
deriving Repr, DecidableEq

/-- nvme_ns_t namespace record (only blockshift is used by the
user-queue code). -/
structure nvme_ns_t where
  blockshift : Nat := 12
  blocksize : Nat := 4096
  blockcount : Nat := 0
deriving Repr, DecidableEq

/-- The queue<T> template: slot array, doorbell register (modelled by
the last value stored through the MMIO pointer), consumer head and
producer tail. -/
structure NvmeQueue (T : Type) where
  addr : Nat → T
  doorbell : Nat := 0
  head : Nat := 0
  tail : Nat := 0

/-- Point update of a two-dimensional table (row, column). -/
def upd2 {α : Type} (f : Nat → Nat → α) (r c : Nat) (v : α) : Nat → Nat → α :=
  fun r' c' => if r' = r ∧ c' = c then v else f r' c'

/-- State of an io_user_queue_pair.  `pending_callbacks` and
`pending_callbacks_locks` are the max_pending_levels × qsize matrices;
`free_prp_lists` is the bounded (16-slot) SPSC pool of recycled PRP-list
pages, modelled as a FIFO list of page pointers; `next_page` is the
cursor of the page allocator (alloc_page returns `next_page` and the
cursor advances); `phys_delta` is the fixed virtual-to-physical
translation offset. -/
structure io_user_queue_pair where
  driver_id : Nat := 0
  id : Nat := 0
  qsize : Nat
  sq : NvmeQueue nvme_sq_entry_t
  sq_full : Bool := false
  cq : NvmeQueue nvme_cq_entry_t
  cq_phase_tag : Nat := 1
  ns : Nat → nvme_ns_t
  free_prp_lists : List Nat := []
  pending_callbacks : Nat → Nat → nvme_pending_req
  pending_callbacks_locks : Nat → Nat → Bool
  next_page : Nat := 1
  phys_delta : Nat := 0

/-- mmu::virt_to_phys, modelled as translation by the fixed offset. -/
def virt_to_phys (s : io_user_queue_pair) (v : Nat) : Nat := v + s.phys_delta

/-- The queue_pair / io_user_queue_pair constructor: zeroed rings,
head = tail = 0, sq_full = false, phase tag 1, all claim bits false and
all pending records {nullptr, nullptr}. -/
def io_user_queue_pair_new (did qid qsize : Nat) (ns : Nat → nvme_ns_t)
    (delta : Nat) : io_user_queue_pair where
  driver_id := did
  id := qid
  qsize := qsize
  sq := { addr := fun _ => {} }
  cq := { addr := fun _ => {} }
  ns := ns
  pending_callbacks := fun _ _ => {}
  pending_callbacks_locks := fun _ _ => false
  phys_delta := delta

/-- queue_pair::advance_sq_tail: increment the tail modulo qsize and
raise sq_full when the new tail runs into the head. -/
def advance_sq_tail (s : io_user_queue_pair) : io_user_queue_pair :=
  let t := (s.sq.tail + 1) % s.qsize
  { s with
    sq := { s.sq with tail := t }
    sq_full := if (t + 1) % s.qsize = s.sq.head then true else s.sq_full }

/-- queue_pair::submit_cmd: copy the entry into sq[tail], advance the
tail, store the new tail to the SQ doorbell, and return `_sq._tail`
(the value of the tail after the advance). -/
def submit_cmd (s : io_user_queue_pair) (cmd : nvme_sq_entry_t) :
    Nat × io_user_queue_pair :=
  let s1 := { s with
    sq := { s.sq with addr := fun i => if i = s.sq.tail then cmd else s.sq.addr i } }
  let s2 := advance_sq_tail s1
  let s3 := { s2 with sq := { s2.sq with doorbell := s2.sq.tail } }
  (s2.sq.tail, s3)

/-- queue_pair::submit_flush_cmd: zeroed entry carrying only opcode,
nsid and cid. -/
def submit_flush_cmd (s : io_user_queue_pair) (cid nsid : Nat) :
    Nat × io_user_queue_pair :=
  submit_cmd s { opc := NVME_CMD_FLUSH, nsid := nsid, cid := cid }

/-- io_user_queue_pair::cid_to_row. -/
def cid_to_row (s : io_user_queue_pair) (cid : Nat) : Nat := cid / s.qsize

/-- io_user_queue_pair::cid_to_col. -/
def cid_to_col (s : io_user_queue_pair) (cid : Nat) : Nat := cid % s.qsize

/-- The CID-claiming loop of io_user_queue_pair::submit_request:

    u16 cid = _sq._tail;
    bool expected = false;
    while (!_pending_callbacks_locks[cid_to_row(cid)][cid_to_col(cid)]
              .compare_exchange_strong(expected, true)) {
        cid += _qsize;
        auto level = cid_to_row(cid);
        if (level >= max_pending_levels) return 0;
    }

compare_exchange_strong(expected, true) compares the claim bit with
`expected`: on equality it stores `true` and succeeds; on inequality it
fails and loads the observed value into `expected` (the C++ code never
resets `expected` to false, and this embedding reproduces that).  `cid`
is a u16 in the source, so `cid += _qsize` wraps modulo 65536, modelled
by `(cid + N) % 65536`; the guard then tests the row of the wrapped
value.  The loop's state is the pair (u16 cid, bool expected) and the
lock bits do not change while it spins, so a run of more than
2 * 65536 iterations has revisited a state and never terminates; with
`fuel` at least 2 * 65536 + 1 (see cid_loop_fuel) every terminating
execution of the C++ loop is therefore reproduced step for step, and
`none` covers the two ways the loop fails to claim: the guard fires
(submit_request returns 0) or the loop never terminates.  When
5 * N ≤ 65536 no wrap can occur, the guard fires by the fourth failed
attempt, and the fuel is never consumed. -/
def claimAux (L : Nat → Nat → Bool) (N : Nat) :
    Nat → Nat → Bool → Option (Nat × (Nat → Nat → Bool))
  | 0, _, _ => none
  | fuel + 1, cid, expected =>
    if L (cid / N) (cid % N) = expected then
      some (cid, upd2 L (cid / N) (cid % N) true)
    else if max_pending_levels ≤ ((cid + N) % 65536) / N then
      none
    else
      claimAux L N fuel ((cid + N) % 65536) (L (cid / N) (cid % N))

/-- Fuel covering every terminating execution of the claim loop: the
loop state (u16 cid, bool expected) has 2 * 65536 values, so a
terminating run makes at most 2 * 65536 CAS attempts. -/
def cid_loop_fuel : Nat := 2 * 65536 + 1

/-- The claim loop entered with `u16 cid = _sq._tail` (truncated to
u16, as in the source) and expected = false. -/
def claim_cid (L : Nat → Nat → Bool) (N tail : Nat) :
    Option (Nat × (Nat → Nat → Bool)) :=
  claimAux L N cid_loop_fuel (tail % 65536) false

theorem claimAux_succ (L : Nat → Nat → Bool) (N fuel cid : Nat) (expected : Bool) :
    claimAux L N (fuel + 1) cid expected =
      if L (cid / N) (cid % N) = expected then
        some (cid, upd2 L (cid / N) (cid % N) true)
      else if max_pending_levels ≤ ((cid + N) % 65536) / N then
        none
      else
        claimAux L N fuel ((cid + N) % 65536) (L (cid / N) (cid % N)) := rfl

/-- Result of io_user_queue_pair::map_prps: the prp1/prp2 fields
written into the command, the PRP-list page pointer stored into the
pending record (`none` = nullptr = no list page), the addresses written
into that list page, and the free pool / allocator cursor afterwards. -/
structure PrpOut where
  prp1 : Nat
  prp2 : Nat
  prp_list : Option Nat
  list_entries : List Nat
  pool : List Nat
  next_page : Nat
deriving Repr, DecidableEq

/-- io_user_queue_pair::map_prps.  `delta` is the virt-to-phys offset,
`pool` the free PRP-list pool, `np` the allocator cursor, `payload` the
virtual payload address and `datasize` the byte length.  `none` models
the failure of `assert(num_of_pages / 512 == 0)`. -/
def map_prps (delta : Nat) (pool : List Nat) (np : Nat)
    (payload datasize : Nat) : Option PrpOut :=
  let addr := payload + delta
  let first_page_start := align_down addr NVME_PAGESIZE
  let last_page_end := align_up (addr + datasize) NVME_PAGESIZE
  let num_of_pages := (last_page_end - first_page_start) / NVME_PAGESIZE
  if num_of_pages = 2 then
    some { prp1 := addr
           prp2 := align_down (payload + NVME_PAGESIZE + delta) NVME_PAGESIZE
           prp_list := none, list_entries := [], pool := pool, next_page := np }
  else if 2 < num_of_pages then
    if num_of_pages / 512 = 0 then
      let alloc : Nat × List Nat × Nat :=
        match pool with
        | p :: rest => (p, rest, np)
        | [] => (np, [], np + 1)
      some { prp1 := addr
             prp2 := alloc.1 + delta
             prp_list := some alloc.1
             list_entries :=
               (List.range (num_of_pages - 1)).map
                 (fun i => first_page_start + (i + 1) * NVME_PAGESIZE)
             pool := alloc.2.1, next_page := alloc.2.2 }
    else
      none
  else
    some { prp1 := addr, prp2 := 0
           prp_list := none, list_entries := [], pool := pool, next_page := np }

/-- Arguments of io_user_queue_pair::submit_request. -/
structure SubmitArgs where
  ns : Nat := 1
  payload : Nat := 0
  addr : Nat := 0
  len : Nat := 0
  cb_fn : Option Nat := none
  cb_arg : Nat := 0
  io_flags : Nat := 0
  cmd : NVME_COMMAND := .READ
deriving Repr, DecidableEq

/-- io_user_queue_pair::submit_read_write_page_cmd for a claimed cid
whose pending record lives at (row, col): build the rw entry
(nlb is stored as `nlb - 1` with u32 wraparound), run map_prps (whose
PRP-list pointer is stored into the pending record at (row, col)), and
submit the entry.  `none` models an assertion failure in map_prps. -/
def submit_read_write_page_cmd (s : io_user_queue_pair)
    (cid nsid opc slba nlb payload row col : Nat) :
    Option (Nat × io_user_queue_pair) :=
  let datasize := (nlb <<< (s.ns nsid).blockshift) % 2 ^ 32
  match map_prps s.phys_delta s.free_prp_lists s.next_page payload datasize with
  | none => none
  | some pr =>
    let cmd : nvme_sq_entry_t :=
      { opc := opc, cid := cid, nsid := nsid
        prp1 := pr.prp1, prp2 := pr.prp2
        slba := slba, nlb := (nlb + (2 ^ 32 - 1)) % 2 ^ 32 }
    let s1 := { s with
      pending_callbacks :=
        upd2 s.pending_callbacks row col
          { s.pending_callbacks row col with prp_list := pr.prp_list }
      free_prp_lists := pr.pool
      next_page := pr.next_page }
    some (submit_cmd s1 cmd)

/-- io_user_queue_pair::submit_request.  Returns `none` on an assertion
failure (null callback, or an oversized transfer inside map_prps);
otherwise `some (r, s')` where `r` is the C return value. -/
def submit_request (s : io_user_queue_pair) (a : SubmitArgs) :
    Option (Nat × io_user_queue_pair) :=
  let slba := a.addr >>> (s.ns a.ns).blockshift
  let nlb := a.len >>> (s.ns a.ns).blockshift
  if s.sq_full then
    some (0, s)
  else
    match claim_cid s.pending_callbacks_locks s.qsize s.sq.tail with
    | none => some (0, s)
    | some (cid, locks') =>
      if a.cb_fn = none then
        none
      else
        let row := cid / s.qsize
        let col := cid % s.qsize
        let s1 := { s with
          pending_callbacks_locks := locks'
          pending_callbacks :=
            upd2 s.pending_callbacks row col
              { cb := { cb := a.cb_fn, cb_args := a.cb_arg }, prp_list := none } }
        match a.cmd with
        | .READ =>
          (submit_read_write_page_cmd s1 cid a.ns NVME_CMD_READ slba nlb
            a.payload row col).map (fun p => (1, p.2))
        | .WRITE =>
          (submit_read_write_page_cmd s1 cid a.ns NVME_CMD_WRITE slba nlb
            a.payload row col).map (fun p => (1, p.2))
        | .FLUSH =>
          some (1, (submit_flush_cmd s1 cid a.ns).2)
        | .other =>
          some (ENOTBLK, s1)

/-- queue_pair::advance_cq_head: increment the CQ head; on reaching
qsize wrap to 0 and toggle the phase tag (`_cq_phase_tag ? 0 : 1`). -/
def advance_cq_head (s : io_user_queue_pair) : io_user_queue_pair :=
  if s.cq.head + 1 = s.qsize then
    { s with
      cq := { s.cq with head := 0 }
      cq_phase_tag := if s.cq_phase_tag ≠ 0 then 0 else 1 }
  else
    { s with cq := { s.cq with head := s.cq.head + 1 } }

/-- queue_pair::completion_queue_not_empty: the entry at the CQ head is
new iff its phase bit equals the expected phase tag. -/
def completion_queue_not_empty (s : io_user_queue_pair) : Bool :=
  (s.cq.addr s.cq.head).p = s.cq_phase_tag

/-- One callback invocation performed by process_completions: the
function pointer and argument taken from the pending record, and the
completion-entry pointer passed as second argument (`none` models the
literal nullptr the code passes). -/
structure Invocation where
  cb : Option Nat
  cb_args : Nat
  cpl : Option nvme_cq_entry_t
deriving Repr, DecidableEq

/-- The body of one iteration of process_completions that found a new
entry at the CQ head: copy the entry, advance the CQ head (toggling the
phase on wrap), store the new head to the CQ doorbell, load the entry's
sqhd into sq.head, `assert(cqe.sc == 0)` (modelled as `Except.error`),
clear sq_full if the reported submission head moved while sq_full was
set, read the pending record at (cid / qsize, cid % qsize), assert the
claim-bit CAS true→false succeeds, recycle any PRP-list page into the
bounded (16-slot) pool (freeing it when the pool is full), and record
the callback invocation: the stored function pointer, its stored
argument, and the literal nullptr the code passes as completion
pointer.  The qsize, the submission tail and ring, the pending-record
matrix and the namespace map are untouched. -/
def reap_entry (s : io_user_queue_pair) :
    Except Unit (io_user_queue_pair × Invocation) :=
  let cqe := s.cq.addr s.cq.head
  let s1 := advance_cq_head s
  if cqe.sc ≠ 0 then
    .error ()
  else
    let row := cqe.cid / s.qsize
    let col := cqe.cid % s.qsize
    let pending_callback := s.pending_callbacks row col
    if s.pending_callbacks_locks row col = true then
      .ok ({ s1 with
              cq := { s1.cq with doorbell := s1.cq.head }
              sq := { s1.sq with head := cqe.sqhd }
              sq_full :=
                if s.sq.head ≠ cqe.sqhd ∧ s.sq_full = true then false
                else s.sq_full
              pending_callbacks_locks :=
                upd2 s.pending_callbacks_locks row col false
              free_prp_lists :=
                match pending_callback.prp_list with
                | some page =>
                  if s.free_prp_lists.length < 16 then
                    s.free_prp_lists ++ [page]
                  else s.free_prp_lists
                | none => s.free_prp_lists },
           { cb := pending_callback.cb.cb
             cb_args := pending_callback.cb.cb_args
             cpl := none })
    else
      .error ()

/-- The `while (counter < max)` loop of
io_user_queue_pair::process_completions, with `remaining = max -
counter` iterations left: stop with the current count when the entry at
the CQ head is not new; otherwise reap it via `reap_entry` and
continue. -/
def pcLoop : Nat → io_user_queue_pair → Nat → List Invocation →
    Except Unit (Nat × io_user_queue_pair × List Invocation)
  | 0, s, counter, invs => .ok (counter, s, invs)
  | remaining + 1, s, counter, invs =>
    if completion_queue_not_empty s then
      match reap_entry s with
      | .error e => .error e
      | .ok (s6, inv) => pcLoop remaining s6 (counter + 1) (invs ++ [inv])
    else
      .ok (counter, s, invs)

/-- io_user_queue_pair::process_completions(max): reap up to max
entries (qsize when max ≤ 0).  The result carries the return value
(number of completions processed), the state afterwards, and the
callback invocations performed, in order; `Except.error` models an
assertion failure (a completion with non-zero status code, or a clear
claim bit for the completed cid). -/
def process_completions (s : io_user_queue_pair) (max : Int) :
    Except Unit (Nat × io_user_queue_pair × List Invocation) :=
  pcLoop (if 0 < max then max.toNat else s.qsize) s 0 []

theorem pcLoop_succ (remaining : Nat) (s : io_user_queue_pair)
    (counter : Nat) (invs : List Invocation) :
    pcLoop (remaining + 1) s counter invs =
      (if completion_queue_not_empty s then
        match reap_entry s with
        | .error e => .error e
        | .ok (s6, inv) => pcLoop remaining s6 (counter + 1) (invs ++ [inv])
      else
        .ok (counter, s, invs)) := rfl

/-- osv_nvme_nv_cmd_read: thin dispatcher; forwards to submit_request
with NVME_COMMAND::READ and returns the result XOR 1. -/
def osv_nvme_nv_cmd_read (s : io_user_queue_pair) (ns payload addr len : Nat)
    (cb_fn : Option Nat) (cb_arg io_flags : Nat) :
    Option (Nat × io_user_queue_pair) :=
  (submit_request s { ns := ns, payload := payload, addr := addr, len := len
                      cb_fn := cb_fn, cb_arg := cb_arg, io_flags := io_flags
                      cmd := .READ }).map (fun p => (p.1 ^^^ 1, p.2))

/-- osv_nvme_nv_cmd_write: thin dispatcher; forwards to submit_request
with NVME_COMMAND::WRITE and returns the result XOR 1. -/
def osv_nvme_nv_cmd_write (s : io_user_queue_pair) (ns payload addr len : Nat)
    (cb_fn : Option Nat) (cb_arg io_flags : Nat) :
    Option (Nat × io_user_queue_pair) :=
  (submit_request s { ns := ns, payload := payload, addr := addr, len := len
                      cb_fn := cb_fn, cb_arg := cb_arg, io_flags := io_flags
                      cmd := .WRITE }).map (fun p => (p.1 ^^^ 1, p.2))

/-- A sequence of K submit_request calls that all succeed (return 1),
starting from `s0`, with arbitrary arguments and no completion
processing in between. -/
inductive SubmitsOk : io_user_queue_pair → Nat → io_user_queue_pair → Prop
  | nil (s : io_user_queue_pair) : SubmitsOk s 0 s
  | snoc (s : io_user_queue_pair) (k : Nat) (s1 s2 : io_user_queue_pair)
      (a : SubmitArgs) :
      SubmitsOk s k s1 → submit_request s1 a = some (1, s2) →
      SubmitsOk s (k + 1) s2

/-- Reachable states of an io_user_queue_pair under the
single-producer / single-consumer contract, with producer and consumer
calls serialized and an adversarial device: the device may overwrite
the completion ring with arbitrary entries (an over-approximation of
every DMA the controller can perform on the state visible to the
driver), the producer runs submit_request with arbitrary arguments, the
consumer runs process_completions; runs ending in an assertion failure
do not produce a successor state. -/
inductive IoReach : io_user_queue_pair → Prop
  | init (did qid qsize : Nat) (hq : 0 < qsize) (ns : Nat → nvme_ns_t)
      (delta : Nat) : IoReach (io_user_queue_pair_new did qid qsize ns delta)
  | submit (s s' : io_user_queue_pair) (a : SubmitArgs) (r : Nat) :
      IoReach s → submit_request s a = some (r, s') → IoReach s'
  | device (s : io_user_queue_pair) (f : Nat → nvme_cq_entry_t) :
      IoReach s → IoReach { s with cq := { s.cq with addr := f } }
  | process (s s' : io_user_queue_pair) (max : Int) (k : Nat)
      (invs : List Invocation) :
      IoReach s → process_completions s max = .ok (k, s', invs) → IoReach s'

/-- Concrete namespace map used by the witness states: one namespace
with 4096-byte blocks (blockshift 12). -/
def exNs : Nat → nvme_ns_t := fun _ => {}

/-- Claim C7: whenever submit_request is called while sq_full is set,
it returns 0 and the state — submission ring, tail, doorbell, CID
slots, claim bits — is returned unchanged (and the model is a total
function: no blocking). -/
theorem submit_request_full_returns_zero (s : io_user_queue_pair)
    (a : SubmitArgs) (h : s.sq_full = true) :
    submit_request s a = some (0, s) := by
  unfold submit_request
  simp [h]

/-- Witness for C7 at a concrete full queue. -/
theorem submit_request_full_returns_zero_witness :
    ({ io_user_queue_pair_new 0 1 4 exNs 0 with sq_full := true } :
        io_user_queue_pair).sq_full = true ∧
      submit_request { io_user_queue_pair_new 0 1 4 exNs 0 with sq_full := true }
        {} = some (0, { io_user_queue_pair_new 0 1 4 exNs 0 with sq_full := true }) :=
  ⟨rfl, submit_request_full_returns_zero _ _ rfl⟩

/-- Counterexample for C8 as stated: from a fresh queue of size 32
(tail = 0), submit_cmd writes the entry into slot 0 of the submission
ring but returns 1 (the advanced tail), not the slot index 0 into which
the entry was written. -/
theorem submit_cmd_returns_advanced_tail_counterexample :
    (submit_cmd (io_user_queue_pair_new 0 1 32 exNs 0)
        { opc := NVME_CMD_READ, cid := 0, nsid := 1 }).2.sq.addr 0 =
      { opc := NVME_CMD_READ, cid := 0, nsid := 1 } ∧
    (submit_cmd (io_user_queue_pair_new 0 1 32 exNs 0)
        { opc := NVME_CMD_READ, cid := 0, nsid := 1 }).1 = 1 := by
  constructor <;> rfl

/-- Claim C8 (amended): with the SQ not full, submit_cmd copies the
entry into sq[tail], advances the tail modulo qsize, stores the new
tail to the SQ doorbell — but it returns the advanced tail (the index
one past the written slot, modulo qsize), not the slot index the entry
was written into. -/
theorem submit_cmd_spec (s : io_user_queue_pair) (e : nvme_sq_entry_t) :
    (submit_cmd s e).2.sq.addr s.sq.tail = e ∧
    (submit_cmd s e).2.sq.tail = (s.sq.tail + 1) % s.qsize ∧
    (submit_cmd s e).2.sq.doorbell = (s.sq.tail + 1) % s.qsize ∧
    (submit_cmd s e).1 = (s.sq.tail + 1) % s.qsize := by
  refine ⟨?_, ?_, ?_, ?_⟩ <;> simp [submit_cmd, advance_sq_tail]

/-- Claim C9: the expected phase tag is 1 immediately after creation,
and advance_cq_head toggles the phase tag exactly when the head wraps
from qsize - 1 to 0 (once per full completion-ring traversal). -/
theorem cq_phase_tag_spec (did qid qsize : Nat) (ns : Nat → nvme_ns_t)
    (delta : Nat) (s : io_user_queue_pair) (hq : 0 < s.qsize)
    (hh : s.cq.head < s.qsize) :
    (io_user_queue_pair_new did qid qsize ns delta).cq_phase_tag = 1 ∧
    (((advance_cq_head s).cq_phase_tag ≠ s.cq_phase_tag) ↔
      s.cq.head = s.qsize - 1) ∧
    (advance_cq_head s).cq.head =
      (if s.cq.head = s.qsize - 1 then 0 else s.cq.head + 1) := by
  refine ⟨rfl, ?_, ?_⟩
  · unfold advance_cq_head
    by_cases h : s.cq.head + 1 = s.qsize
    · have hl : s.cq.head = s.qsize - 1 := by omega
      rw [if_pos h]
      by_cases hp : s.cq_phase_tag = 0
      · simp [hp, hl]
      · simp only [hp, ne_eq, not_false_iff, if_true, hl]
        constructor
        · intro _; trivial
        · intro _; omega
    · have hl : ¬s.cq.head = s.qsize - 1 := by omega
      rw [if_neg h]
      simp [hl]
  · unfold advance_cq_head
    by_cases h : s.cq.head + 1 = s.qsize
    · have hl : s.cq.head = s.qsize - 1 := by omega
      rw [if_pos h]
      simp [hl]
    · have hl : ¬s.cq.head = s.qsize - 1 := by omega
      rw [if_neg h]
      simp [hl]

/-- Witness for C9 at a concrete queue of size 2 whose head sits on the
last slot: advancing wraps to 0 and flips the phase tag. -/
theorem cq_phase_tag_spec_witness :
    (io_user_queue_pair_new 0 1 2 exNs 0).cq_phase_tag = 1 ∧
    (((advance_cq_head { io_user_queue_pair_new 0 1 2 exNs 0 with
          cq := { addr := fun _ => {}, head := 1 } }).cq_phase_tag ≠
        ({ io_user_queue_pair_new 0 1 2 exNs 0 with
          cq := { addr := fun _ => {}, head := 1 } } :
            io_user_queue_pair).cq_phase_tag) ↔
      ({ io_user_queue_pair_new 0 1 2 exNs 0 with
          cq := { addr := fun _ => {}, head := 1 } } :
            io_user_queue_pair).cq.head =
        ({ io_user_queue_pair_new 0 1 2 exNs 0 with
          cq := { addr := fun _ => {}, head := 1 } } :
            io_user_queue_pair).qsize - 1) ∧
    (advance_cq_head { io_user_queue_pair_new 0 1 2 exNs 0 with
        cq := { addr := fun _ => {}, head := 1 } }).cq.head =
      (if ({ io_user_queue_pair_new 0 1 2 exNs 0 with
          cq := { addr := fun _ => {}, head := 1 } } :
            io_user_queue_pair).cq.head =
          ({ io_user_queue_pair_new 0 1 2 exNs 0 with
            cq := { addr := fun _ => {}, head := 1 } } :
              io_user_queue_pair).qsize - 1 then 0
        else ({ io_user_queue_pair_new 0 1 2 exNs 0 with
          cq := { addr := fun _ => {}, head := 1 } } :
            io_user_queue_pair).cq.head + 1) :=
  cq_phase_tag_spec 0 1 2 exNs 0
    { io_user_queue_pair_new 0 1 2 exNs 0 with
      cq := { addr := fun _ => {}, head := 1 } }
    (by decide) (by decide)

/-- Field bookkeeping of submit_cmd: only the submission ring contents,
tail, sq_full flag and SQ doorbell change. -/
theorem submit_cmd_fields (s : io_user_queue_pair) (e : nvme_sq_entry_t) :
    (submit_cmd s e).2.pending_callbacks_locks = s.pending_callbacks_locks ∧
    (submit_cmd s e).2.pending_callbacks = s.pending_callbacks ∧
    (submit_cmd s e).2.qsize = s.qsize ∧
    (submit_cmd s e).2.sq.head = s.sq.head ∧
    (submit_cmd s e).2.sq.tail = (s.sq.tail + 1) % s.qsize ∧
    (submit_cmd s e).2.sq_full =
      (if ((s.sq.tail + 1) % s.qsize + 1) % s.qsize = s.sq.head then true
       else s.sq_full) :=
  ⟨rfl, rfl, rfl, rfl, rfl, rfl⟩

/-- Case analysis of submit_read_write_page_cmd: either map_prps fails
its assertion, or the command is submitted, in which case the claim
bits are untouched and the tail advances as in submit_cmd. -/
theorem submit_read_write_page_cmd_cases (s : io_user_queue_pair)
    (cid nsid opc slba nlb payload row col : Nat) :
    submit_read_write_page_cmd s cid nsid opc slba nlb payload row col = none ∨
    ∃ t s'',
      submit_read_write_page_cmd s cid nsid opc slba nlb payload row col =
        some (t, s'') ∧
      s''.pending_callbacks_locks = s.pending_callbacks_locks ∧
      s''.qsize = s.qsize ∧ s''.sq.head = s.sq.head ∧
      s''.sq.tail = (s.sq.tail + 1) % s.qsize ∧
      s''.sq_full =
        (if ((s.sq.tail + 1) % s.qsize + 1) % s.qsize = s.sq.head then true
         else s.sq_full) := by
  simp only [submit_read_write_page_cmd]
  cases hm : map_prps s.phys_delta s.free_prp_lists s.next_page payload
      ((nlb <<< (s.ns nsid).blockshift) % 2 ^ 32) with
  | none => exact Or.inl rfl
  | some pr =>
    refine Or.inr ⟨_, _, rfl, ?_, ?_, ?_, ?_, ?_⟩ <;> rfl

/-- Case analysis of submit_request: either the queue was full (return
0, state untouched), or no CID level was free (return 0, state
untouched), or a CID was claimed and the call returned ENOTBLK (for an
unsupported opcode, leaving tail and sq_full untouched) or 1 (command
submitted: tail advanced modulo qsize, sq_full raised exactly when the
advanced tail runs into the head). -/
theorem submit_request_cases (s : io_user_queue_pair) (a : SubmitArgs)
    (r : Nat) (s' : io_user_queue_pair)
    (h : submit_request s a = some (r, s')) :
    (s.sq_full = true ∧ r = 0 ∧ s' = s) ∨
    (s.sq_full = false ∧
      claim_cid s.pending_callbacks_locks s.qsize s.sq.tail = none ∧
      r = 0 ∧ s' = s) ∨
    (∃ cid locks', s.sq_full = false ∧
      claim_cid s.pending_callbacks_locks s.qsize s.sq.tail = some (cid, locks') ∧
      s'.pending_callbacks_locks = locks' ∧
      s'.qsize = s.qsize ∧ s'.sq.head = s.sq.head ∧
      ((r = ENOTBLK ∧ a.cmd = .other ∧ s'.sq.tail = s.sq.tail ∧
        s'.sq_full = s.sq_full) ∨
       (r = 1 ∧ s'.sq.tail = (s.sq.tail + 1) % s.qsize ∧
        s'.sq_full = (if ((s.sq.tail + 1) % s.qsize + 1) % s.qsize = s.sq.head
          then true else s.sq_full)))) := by
  unfold submit_request at h
  by_cases hf : s.sq_full = true
  · rw [if_pos hf] at h
    simp only [Option.some.injEq, Prod.mk.injEq] at h
    exact Or.inl ⟨hf, h.1.symm, h.2.symm⟩
  · rw [if_neg hf] at h
    rw [Bool.not_eq_true] at hf
    cases hc : claim_cid s.pending_callbacks_locks s.qsize s.sq.tail with
    | none =>
      rw [hc] at h
      dsimp only at h
      simp only [Option.some.injEq, Prod.mk.injEq] at h
      exact Or.inr (Or.inl ⟨hf, rfl, h.1.symm, h.2.symm⟩)
    | some p =>
      obtain ⟨cid, locks'⟩ := p
      rw [hc] at h
      dsimp only at h
      by_cases hcb : a.cb_fn = none
      · rw [if_pos hcb] at h
        exact Option.noConfusion h
      · rw [if_neg hcb] at h
        refine Or.inr (Or.inr ⟨cid, locks', hf, rfl, ?_⟩)
        cases hcmd : a.cmd with
        | READ =>
          rw [hcmd] at h
          dsimp only at h
          rcases submit_read_write_page_cmd_cases
              { s with
                pending_callbacks_locks := locks'
                pending_callbacks :=
                  upd2 s.pending_callbacks (cid / s.qsize) (cid % s.qsize)
                    { cb := { cb := a.cb_fn, cb_args := a.cb_arg }
                      prp_list := none } }
              cid a.ns NVME_CMD_READ (a.addr >>> (s.ns a.ns).blockshift)
              (a.len >>> (s.ns a.ns).blockshift) a.payload
              (cid / s.qsize) (cid % s.qsize) with hnone | ⟨t, s'', heq, h1, h2, h3, h4, h5⟩
          · rw [hnone] at h
            simp only [Option.map_none', reduceCtorEq] at h
          · rw [heq] at h
            simp only [Option.map_some', Option.some.injEq, Prod.mk.injEq] at h
            obtain ⟨hr, hs⟩ := h
            subst hs
            exact ⟨h1, h2, h3, Or.inr ⟨hr.symm, h4, h5⟩⟩
        | WRITE =>
          rw [hcmd] at h
          dsimp only at h
          rcases submit_read_write_page_cmd_cases
              { s with
                pending_callbacks_locks := locks'
                pending_callbacks :=
                  upd2 s.pending_callbacks (cid / s.qsize) (cid % s.qsize)
                    { cb := { cb := a.cb_fn, cb_args := a.cb_arg }
                      prp_list := none } }
              cid a.ns NVME_CMD_WRITE (a.addr >>> (s.ns a.ns).blockshift)
              (a.len >>> (s.ns a.ns).blockshift) a.payload
              (cid / s.qsize) (cid % s.qsize) with hnone | ⟨t, s'', heq, h1, h2, h3, h4, h5⟩
          · rw [hnone] at h
            simp only [Option.map_none', reduceCtorEq] at h
          · rw [heq] at h
            simp only [Option.map_some', Option.some.injEq, Prod.mk.injEq] at h
            obtain ⟨hr, hs⟩ := h
            subst hs
            exact ⟨h1, h2, h3, Or.inr ⟨hr.symm, h4, h5⟩⟩
        | FLUSH =>
          rw [hcmd] at h
          dsimp only at h
          simp only [Option.some.injEq, Prod.mk.injEq] at h
          obtain ⟨hr, hs⟩ := h
          subst hs
          exact ⟨rfl, rfl, rfl, Or.inr ⟨hr.symm, rfl, rfl⟩⟩
        | other =>
          rw [hcmd] at h
          dsimp only at h
          simp only [Option.some.injEq, Prod.mk.injEq] at h
          obtain ⟨hr, hs⟩ := h
          subst hs
          exact ⟨rfl, rfl, rfl, Or.inl ⟨hr.symm, rfl, rfl, rfl⟩⟩

/-- Claim C3 (amended): submit_request returns 1 if the command was
submitted, 0 if the submission ring is full or no CID row is available,
and the positive errno value ENOTBLK (15) — not a negative value — when
the requested opcode is unsupported. -/
theorem submit_request_returns (s : io_user_queue_pair) (a : SubmitArgs)
    (r : Nat) (s' : io_user_queue_pair)
    (h : submit_request s a = some (r, s')) :
    (r = 0 ∨ r = 1 ∨ r = ENOTBLK) ∧
    (r = ENOTBLK → a.cmd = NVME_COMMAND.other) ∧
    (r = 0 → s.sq_full = true ∨
      claim_cid s.pending_callbacks_locks s.qsize s.sq.tail = none) ∧
    (r = 1 → s.sq_full = false) := by
  rcases submit_request_cases s a r s' h with ⟨hf, hr, _⟩ | ⟨hf, hc, hr, _⟩ |
      ⟨cid, locks', hf, hc, _, _, _, ⟨hr, hcmd, _⟩ | ⟨hr, _⟩⟩
  · subst hr
    refine ⟨Or.inl rfl, ?_, fun _ => Or.inl hf, ?_⟩
    · intro h15; exact absurd h15 (by decide)
    · intro h1; exact absurd h1 (by decide)
  · subst hr
    refine ⟨Or.inl rfl, ?_, fun _ => Or.inr hc, ?_⟩
    · intro h15; exact absurd h15 (by decide)
    · intro h1; exact absurd h1 (by decide)
  · subst hr
    refine ⟨Or.inr (Or.inr rfl), fun _ => hcmd, ?_, ?_⟩
    · intro h0; exact absurd h0 (by decide)
    · intro h1; exact absurd h1 (by decide)
  · subst hr
    refine ⟨Or.inr (Or.inl rfl), ?_, ?_, fun _ => hf⟩
    · intro h15; exact absurd h15 (by decide)
    · intro h0; exact absurd h0 (by decide)

/-- Base queue used by the C3 counterexample. -/
def c3_base : io_user_queue_pair := io_user_queue_pair_new 0 1 4 exNs 0

/-- Arguments with an out-of-enum command, exercising the `default:`
branch of submit_request's switch. -/
def c3_args : SubmitArgs := { cb_fn := some 1, cmd := .other }

/-- The state after the C3 counterexample call. -/
def c3_after : io_user_queue_pair :=
  ((submit_request c3_base c3_args).getD (0, c3_base)).2

/-- Counterexample for C3 as stated: on an unsupported opcode,
submit_request returns ENOTBLK = 15, a positive errno value, not a
negative value. -/
theorem submit_request_negative_return_counterexample :
    submit_request c3_base c3_args = some (ENOTBLK, c3_after) ∧
      ¬((ENOTBLK : Int) < 0) :=
  ⟨rfl, by decide⟩

/-- Witness for (amended) C3 at the concrete unsupported-opcode call. -/
theorem submit_request_returns_witness :
    (ENOTBLK = 0 ∨ ENOTBLK = 1 ∨ ENOTBLK = ENOTBLK) ∧
    (ENOTBLK = ENOTBLK → c3_args.cmd = NVME_COMMAND.other) ∧
    (ENOTBLK = 0 → c3_base.sq_full = true ∨
      claim_cid c3_base.pending_callbacks_locks c3_base.qsize c3_base.sq.tail =
        none) ∧
    (ENOTBLK = 1 → c3_base.sq_full = false) :=
  submit_request_returns c3_base c3_args ENOTBLK c3_after rfl

/-- Invariant of a successful submission sequence from a fresh queue of
size N ≥ 2: after K successful calls the tail is K, at most N - 1 calls
can succeed, and sq_full is raised exactly when K = N - 1. -/
theorem submits_ok_inv (did qid N : Nat) (ns : Nat → nvme_ns_t) (delta : Nat)
    (hN : 2 ≤ N) {K : Nat} {s : io_user_queue_pair}
    (h : SubmitsOk (io_user_queue_pair_new did qid N ns delta) K s) :
    s.qsize = N ∧ s.sq.head = 0 ∧ s.sq.tail = K ∧ K + 1 ≤ N ∧
      (s.sq_full = true ↔ K + 1 = N) := by
  induction h with
  | nil =>
    refine ⟨rfl, rfl, rfl, by omega, ?_⟩
    constructor
    · intro hx; exact absurd hx Bool.false_ne_true
    · intro hx; exact absurd hx (by omega)
  | snoc k s1 s2 a hprev hsub ih =>
    obtain ⟨hq, hh, ht, hb, hfull⟩ := ih
    rcases submit_request_cases _ a 1 _ hsub with ⟨_, h10, _⟩ | ⟨_, _, h10, _⟩ |
        ⟨cid, locks', hf, hc, _, hqs, hhd, ⟨h15, _⟩ | ⟨_, htail, hfull2⟩⟩
    · exact absurd h10 (by decide)
    · exact absurd h10 (by decide)
    · exact absurd h15 (by decide)
    · have hKN : ¬(k + 1 = N) := fun hx => by
        have hft := hfull.mpr hx
        rw [hft] at hf
        exact absurd hf (by decide)
      have hKlt : k + 1 < N := by omega
      rw [hq] at hqs htail hfull2
      rw [ht] at htail hfull2
      rw [hh] at hfull2
      rw [hf] at hfull2
      have hmod : (k + 1) % N = k + 1 := Nat.mod_eq_of_lt hKlt
      rw [hmod] at htail hfull2
      refine ⟨hqs, by rw [hhd, hh], by rw [htail], by omega, ?_⟩
      by_cases hKN2 : k + 1 + 1 = N
      · have hz : (k + 1 + 1) % N = 0 := by rw [hKN2, Nat.mod_self]
        rw [hz] at hfull2
        rw [if_pos rfl] at hfull2
        rw [hfull2]
        simp only [true_iff]
        omega
      · have hlt2 : k + 1 + 1 < N := by omega
        have hm2 : (k + 1 + 1) % N = k + 1 + 1 := Nat.mod_eq_of_lt hlt2
        rw [hm2] at hfull2
        have hne : ¬(k + 1 + 1 = 0) := by omega
        rw [if_neg hne] at hfull2
        rw [hfull2]
        constructor
        · intro hx; exact absurd hx (by decide)
        · intro hx; exact absurd hx (by omega)

/-- Claim C6: starting from a freshly created queue of size N ≥ 2,
after any sequence of K successful submit_request calls with no
completions processed, the submission-queue tail equals K mod N, and if
K ≥ N - 1 then the sq_full flag is true. -/
theorem submit_sequence_tail_and_full (did qid N : Nat) (ns : Nat → nvme_ns_t)
    (delta K : Nat) (s : io_user_queue_pair) (hN : 2 ≤ N)
    (h : SubmitsOk (io_user_queue_pair_new did qid N ns delta) K s) :
    s.sq.tail = K % N ∧ (N - 1 ≤ K → s.sq_full = true) := by
  obtain ⟨hq, hh, ht, hb, hfull⟩ := submits_ok_inv did qid N ns delta hN h
  constructor
  · rw [ht, Nat.mod_eq_of_lt (by omega)]
  · intro hK
    exact hfull.mpr (by omega)

/-- Base queue (size 2) for the C6 witness. -/
def c6_base : io_user_queue_pair := io_user_queue_pair_new 0 1 2 exNs 0

/-- A flush submission used by the C6 witness. -/
def c6_args : SubmitArgs := { cb_fn := some 1, cmd := .FLUSH }

/-- State after one successful submission from the fresh size-2 queue. -/
def c6_s1 : io_user_queue_pair :=
  ((submit_request c6_base c6_args).getD (0, c6_base)).2

/-- Witness for C6: one successful submission on a fresh queue of size
2 leaves tail = 1 mod 2 and (since 1 ≥ N - 1) sq_full set. -/
theorem submit_sequence_tail_and_full_witness :
    c6_s1.sq.tail = 1 % 2 ∧ (2 - 1 ≤ 1 → c6_s1.sq_full = true) :=
  submit_sequence_tail_and_full 0 1 2 exNs 0 1 c6_s1 (by decide)
    (SubmitsOk.snoc c6_base 0 c6_base c6_s1 c6_args (SubmitsOk.nil c6_base) rfl)

/-- advance_cq_head only touches the CQ head and the phase tag. -/
theorem advance_cq_head_frame (s : io_user_queue_pair) :
    (advance_cq_head s).qsize = s.qsize ∧
    (advance_cq_head s).sq = s.sq ∧
    (advance_cq_head s).pending_callbacks_locks = s.pending_callbacks_locks ∧
    (advance_cq_head s).pending_callbacks = s.pending_callbacks := by
  unfold advance_cq_head
  by_cases h : s.cq.head + 1 = s.qsize
  · rw [if_pos h]; exact ⟨rfl, rfl, rfl, rfl⟩
  · rw [if_neg h]; exact ⟨rfl, rfl, rfl, rfl⟩

/-- A successfully reaped entry preserves qsize, the submission tail
and the pending-record matrix, only clears claim bits, and records an
invocation whose completion pointer is the nullptr the code passes. -/
theorem reap_entry_ok (s s6 : io_user_queue_pair) (inv : Invocation)
    (h : reap_entry s = .ok (s6, inv)) :
    s6.qsize = s.qsize ∧ s6.sq.tail = s.sq.tail ∧ inv.cpl = none ∧
    (∀ r c, s6.pending_callbacks_locks r c = true →
      s.pending_callbacks_locks r c = true) := by
  simp only [reap_entry] at h
  split at h
  · exact Except.noConfusion h
  · split at h
    · simp only [Except.ok.injEq, Prod.mk.injEq] at h
      obtain ⟨hs, hi⟩ := h
      subst hs
      subst hi
      refine ⟨(advance_cq_head_frame s).1, ?_, rfl, ?_⟩
      · show ((advance_cq_head s).sq).tail = s.sq.tail
        rw [(advance_cq_head_frame s).2.1]
      · intro r c hrc
        have hrc' : upd2 s.pending_callbacks_locks
            ((s.cq.addr s.cq.head).cid / s.qsize)
            ((s.cq.addr s.cq.head).cid % s.qsize) false r c = true := hrc
        unfold upd2 at hrc'
        by_cases hb : r = (s.cq.addr s.cq.head).cid / s.qsize ∧
            c = (s.cq.addr s.cq.head).cid % s.qsize
        · rw [if_pos hb] at hrc'
          exact absurd hrc' Bool.false_ne_true
        · rw [if_neg hb] at hrc'
          exact hrc'
    · exact Except.noConfusion h

/-- Loop invariant of process_completions: a successful run preserves
qsize and the submission tail, only clears claim bits, counts one
invocation per reaped entry, and every recorded invocation carries a
null completion pointer. -/
theorem pcLoop_ok (remaining : Nat) :
    ∀ (s : io_user_queue_pair) (counter : Nat) (invs : List Invocation)
      (k : Nat) (s' : io_user_queue_pair) (invs' : List Invocation),
      pcLoop remaining s counter invs = .ok (k, s', invs') →
      s'.qsize = s.qsize ∧ s'.sq.tail = s.sq.tail ∧
      (∀ r c, s'.pending_callbacks_locks r c = true →
        s.pending_callbacks_locks r c = true) ∧
      counter ≤ k ∧ invs'.length + counter = invs.length + k ∧
      (∀ inv ∈ invs', inv ∈ invs ∨ inv.cpl = none) := by
  induction remaining with
  | zero =>
    intro s counter invs k s' invs' h
    simp only [pcLoop, Except.ok.injEq, Prod.mk.injEq] at h
    obtain ⟨hk, hs, hi⟩ := h
    subst hk; subst hs; subst hi
    exact ⟨rfl, rfl, fun _ _ hx => hx, le_refl _, rfl, fun _ hm => Or.inl hm⟩
  | succ n ih =>
    intro s counter invs k s' invs' h
    rw [pcLoop_succ] at h
    by_cases hne : completion_queue_not_empty s = true
    · rw [if_pos hne] at h
      cases hre : reap_entry s with
      | error e => rw [hre] at h; exact Except.noConfusion h
      | ok p =>
        obtain ⟨s6, inv⟩ := p
        rw [hre] at h
        obtain ⟨hq6, ht6, hc6, hm6⟩ := reap_entry_ok s s6 inv hre
        obtain ⟨hq, ht, hmono, hcnt, hlen, hmem⟩ := ih s6 (counter + 1)
          (invs ++ [inv]) k s' invs' h
        refine ⟨hq.trans hq6, ht.trans ht6, ?_, by omega, ?_, ?_⟩
        · intro r c hrc
          exact hm6 r c (hmono r c hrc)
        · rw [List.length_append] at hlen
          simp only [List.length_singleton] at hlen
          omega
        · intro i him
          rcases hmem i him with hin | hnone
          · rcases List.mem_append.mp hin with hl | hr
            · exact Or.inl hl
            · right
              rw [List.mem_singleton.mp hr]
              exact hc6
          · exact Or.inr hnone
    · rw [if_neg hne] at h
      simp only [Except.ok.injEq, Prod.mk.injEq] at h
      obtain ⟨hk, hs, hi⟩ := h
      subst hk; subst hs; subst hi
      exact ⟨rfl, rfl, fun _ _ hx => hx, le_refl _, rfl, fun _ hm => Or.inl hm⟩

/-- Claim C1 (amended): a successful process_completions run performs
exactly one callback invocation per reaped entry, each with the
callback and argument stored in the pending record — but the completion
pointer handed to the callback is null (the code passes the literal
nullptr, not a pointer to the completion entry), so no status is
conveyed; and a completion whose status-code field is non-zero is never
delivered at all, because `assert(cqe.sc == 0)` aborts before the
callback is invoked. -/
theorem process_completions_invocations (s : io_user_queue_pair) (max : Int)
    (k : Nat) (s' : io_user_queue_pair) (invs : List Invocation)
    (h : process_completions s max = .ok (k, s', invs)) :
    invs.length = k ∧ ∀ inv ∈ invs, inv.cpl = none := by
  obtain ⟨_, _, _, _, hlen, hmem⟩ :=
    pcLoop_ok (if 0 < max then max.toNat else s.qsize) s 0 [] k s' invs h
  constructor
  · simpa using hlen
  · intro inv him
    rcases hmem inv him with hin | hnone
    · exact absurd hin (List.not_mem_nil inv)
    · exact hnone

/-- A queue of size 2 whose CQ head holds a new completion (phase 1)
with non-zero status code 1 for cid 0, whose claim bit (0,0) is set and
whose pending record stores callback 7 with argument 42. -/
def c1_err : io_user_queue_pair :=
  { io_user_queue_pair_new 0 1 2 exNs 0 with
    cq := { addr := fun i =>
      if i = 0 then { p := 1, cid := 0, sqhd := 1, sc := 1 } else {} }
    pending_callbacks := fun _ _ => { cb := { cb := some 7, cb_args := 42 } }
    pending_callbacks_locks := fun r c => if r = 0 ∧ c = 0 then true else false }

/-- The same queue with a zero status code in the completion entry. -/
def c1_okq : io_user_queue_pair :=
  { io_user_queue_pair_new 0 1 2 exNs 0 with
    cq := { addr := fun i =>
      if i = 0 then { p := 1, cid := 0, sqhd := 1, sc := 0 } else {} }
    pending_callbacks := fun _ _ => { cb := { cb := some 7, cb_args := 42 } }
    pending_callbacks_locks := fun r c => if r = 0 ∧ c = 0 then true else false }

/-- The state after reaping the zero-status completion. -/
def c1_okq_after : io_user_queue_pair :=
  match process_completions c1_okq 1 with
  | .ok (_, s, _) => s
  | _ => c1_okq

/-- The invocations performed while reaping the zero-status entry. -/
def c1_invs : List Invocation :=
  match process_completions c1_okq 1 with
  | .ok (_, _, l) => l
  | _ => []

/-- Counterexample for C1 as stated.  First conjunct: with a non-zero
status-code completion at the CQ head, process_completions hits
`assert(cqe.sc == 0)` and aborts — the stored callback is never
invoked, although the claim says the callback is still invoked with the
pointer conveying the error.  Second conjunct: even for a zero-status
completion the callback receives a null completion pointer (`cpl =
none`), not a pointer to the completion entry or any status carrier. -/
theorem process_completions_error_status_counterexample :
    process_completions c1_err 1 = .error () ∧
    process_completions c1_okq 1 =
      .ok (1, c1_okq_after, [{ cb := some 7, cb_args := 42, cpl := none }]) :=
  ⟨rfl, rfl⟩

/-- Witness for (amended) C1 at the concrete zero-status run. -/
theorem process_completions_invocations_witness :
    c1_invs.length = 1 ∧ ∀ inv ∈ c1_invs, inv.cpl = none :=
  process_completions_invocations c1_okq 1 1 c1_okq_after c1_invs rfl

/-- Behaviour of the CID-claim loop when the queue size is small enough
that the four-row u16 CID window cannot wrap (5 * qsize ≤ 65536, true
of every configured size) and rows 1 and 3 hold no claims (which the
reachability invariant below shows is then always the case): a
successful claim lands on a slot whose claim bit was false — a genuine
false→true compare-and-set — in the tail's own column, on row 0 or row
2, and the lock table is updated at exactly that slot. -/
theorem claim_cid_sound (L : Nat → Nat → Bool) (N c0 : Nat) (hN : 0 < N)
    (hc : c0 < N) (hw : 5 * N ≤ 65536)
    (h1 : ∀ c, L 1 c = false) (h3 : ∀ c, L 3 c = false)
    (cid : Nat) (L' : Nat → Nat → Bool)
    (h : claim_cid L N c0 = some (cid, L')) :
    L (cid / N) (cid % N) = false ∧ cid % N = c0 ∧
      (cid / N = 0 ∨ cid / N = 2) ∧
      L' = upd2 L (cid / N) (cid % N) true := by
  have e0 : c0 / N = 0 := Nat.div_eq_of_lt hc
  have m0 : c0 % N = c0 := Nat.mod_eq_of_lt hc
  have e1 : (c0 + N) / N = 1 := by
    rw [Nat.add_div_right _ hN, e0]
  have m1 : (c0 + N) % N = c0 := by rw [Nat.add_mod_right, m0]
  have e2 : (c0 + N + N) / N = 2 := by
    rw [Nat.add_div_right _ hN, e1]
  have m2 : (c0 + N + N) % N = c0 := by rw [Nat.add_mod_right, m1]
  have e3 : (c0 + N + N + N) / N = 3 := by
    rw [Nat.add_div_right _ hN, e2]
  have m3 : (c0 + N + N + N) % N = c0 := by rw [Nat.add_mod_right, m2]
  have e4 : (c0 + N + N + N + N) / N = 4 := by
    rw [Nat.add_div_right _ hN, e3]
  have wt : c0 % 65536 = c0 := Nat.mod_eq_of_lt (by omega)
  have w1 : (c0 + N) % 65536 = c0 + N := Nat.mod_eq_of_lt (by omega)
  have w2 : (c0 + N + N) % 65536 = c0 + N + N := Nat.mod_eq_of_lt (by omega)
  have w3 : (c0 + N + N + N) % 65536 = c0 + N + N + N :=
    Nat.mod_eq_of_lt (by omega)
  have w4 : (c0 + N + N + N + N) % 65536 = c0 + N + N + N + N :=
    Nat.mod_eq_of_lt (by omega)
  unfold claim_cid at h
  rw [wt, show cid_loop_fuel = 131072 + 1 from rfl, claimAux_succ, e0, m0,
    w1] at h
  cases hL0 : L 0 c0 with
  | false =>
    rw [hL0, if_pos rfl] at h
    simp only [Option.some.injEq, Prod.mk.injEq] at h
    obtain ⟨hcid, hL'⟩ := h
    subst hcid
    rw [e0, m0]
    exact ⟨hL0, rfl, Or.inl rfl, hL'.symm⟩
  | true =>
    rw [hL0, if_neg (by decide)] at h
    rw [e1, if_neg (by decide)] at h
    rw [show (131072 : Nat) = 131071 + 1 from rfl, claimAux_succ, e1, m1,
      h1 c0, w2, if_neg (by decide), e2, if_neg (by decide)] at h
    rw [show (131071 : Nat) = 131070 + 1 from rfl, claimAux_succ, e2, m2,
      w3] at h
    cases hL2 : L 2 c0 with
    | false =>
      rw [hL2, if_pos rfl] at h
      simp only [Option.some.injEq, Prod.mk.injEq] at h
      obtain ⟨hcid, hL'⟩ := h
      subst hcid
      rw [e2, m2]
      exact ⟨hL2, rfl, Or.inr rfl, hL'.symm⟩
    | true =>
      rw [hL2, if_neg (by decide)] at h
      rw [e3, if_neg (by decide)] at h
      rw [show (131070 : Nat) = 131069 + 1 from rfl, claimAux_succ, e3, m3,
        h3 c0, w4, if_neg (by decide), e4, if_pos (by decide)] at h
      exact Option.noConfusion h

/-- Inductive invariant of reachable io_user_queue_pair states whose
queue size keeps the four-row u16 CID window from wrapping
(5 * qsize ≤ 65536; the queue size never changes, so the bound holds in
every state of such a queue's run): the queue size is positive, the
submission tail stays below it, and rows 1 and 3 of the claim-bit
matrix are never claimed (a consequence of the claim loop's unreset
`expected` flag: after a conflict on an even row the CAS at the next
odd row is attempted with expected = true against a false bit and
always fails). -/
theorem io_reach_inv (s : io_user_queue_pair) (h : IoReach s)
    (hw : 5 * s.qsize ≤ 65536) :
    0 < s.qsize ∧ s.sq.tail < s.qsize ∧
    (∀ c, s.pending_callbacks_locks 1 c = false) ∧
    (∀ c, s.pending_callbacks_locks 3 c = false) := by
  revert hw
  induction h with
  | init did qid qsize hq ns delta =>
    intro hw
    exact ⟨hq, hq, fun _ => rfl, fun _ => rfl⟩
  | submit s0 s' a r hs hsub ih =>
    intro hw
    rcases submit_request_cases _ _ _ _ hsub with ⟨_, _, hss⟩ | ⟨_, _, _, hss⟩ |
        ⟨cid, locks', hf, hc, hlk, hqs, _, hrest⟩
    · subst hss; exact ih hw
    · subst hss; exact ih hw
    · rw [hqs] at hw
      obtain ⟨hq, ht, h1, h3⟩ := ih hw
      obtain ⟨hfree, hcol, hrow, hL'⟩ :=
        claim_cid_sound _ _ _ hq ht hw h1 h3 _ _ hc
      refine ⟨by rw [hqs]; exact hq, ?_, ?_, ?_⟩
      · rcases hrest with ⟨_, _, htail, _⟩ | ⟨_, htail, _⟩
        · rw [hqs, htail]; exact ht
        · rw [hqs, htail]; exact Nat.mod_lt _ hq
      · intro c
        rw [hlk, hL']
        unfold upd2
        have hne : ¬(1 = cid / s0.qsize ∧ c = cid % s0.qsize) := by
          rintro ⟨ha, _⟩
          rcases hrow with h0 | h2 <;> omega
        rw [if_neg hne]
        exact h1 c
      · intro c
        rw [hlk, hL']
        unfold upd2
        have hne : ¬(3 = cid / s0.qsize ∧ c = cid % s0.qsize) := by
          rintro ⟨ha, _⟩
          rcases hrow with h0 | h2 <;> omega
        rw [if_neg hne]
        exact h3 c
  | device s0 f hs ih =>
    intro hw
    exact ih hw
  | process s0 s' max k invs hs hpc ih =>
    intro hw
    obtain ⟨hqs, htl, hmono, _, _, _⟩ :=
      pcLoop_ok (if 0 < max then max.toNat else s0.qsize) s0 0 [] k s' invs hpc
    rw [hqs] at hw
    obtain ⟨hq, ht, h1, h3⟩ := ih hw
    refine ⟨by rw [hqs]; exact hq, by rw [htl, hqs]; exact ht, ?_, ?_⟩
    · intro c
      cases hval : s'.pending_callbacks_locks 1 c with
      | false => rfl
      | true =>
        have hgt := hmono 1 c hval
        rw [h1 c] at hgt
        exact absurd hgt Bool.false_ne_true
    · intro c
      cases hval : s'.pending_callbacks_locks 3 c with
      | false => rfl
      | true =>
        have hgt := hmono 3 c hval
        rw [h3 c] at hgt
        exact absurd hgt Bool.false_ne_true

/-- Lock table of the C2 counterexample: pending requests hold the
claim bits (0, 16999), (2, 16999) and (0, 2463) of a size-17000 queue.
Such a table arises under the SPSC contract from three earlier
successful submissions whose completions the device has not yet posted:
one at tail 16999 claiming row 0, a later one at tail 16999 (after the
ring wrapped while the first was still outstanding) that found row 0
claimed, failed the row-1 CAS with the stale expected = true, and
claimed row 2, and one at tail 2463 claiming row 0. -/
def c2x_locks0 : Nat → Nat → Bool := fun r c =>
  if (r = 0 ∧ c = 16999) ∨ (r = 2 ∧ c = 16999) ∨ (r = 0 ∧ c = 2463) then true
  else false

/-- The C2 counterexample state: queue size 17000 (legal for NVMe, but
large enough that the four-row u16 CID window wraps: 5 * 17000 >
65536), submission tail 16999, the three claim bits above set, and a
live pending record (callback 5, argument 99) stored in every slot —
in particular in the claimed slot (0, 2463). -/
def c2x_state : io_user_queue_pair :=
  { io_user_queue_pair_new 0 1 17000 exNs 0 with
    sq := { addr := fun _ => {}, tail := 16999 }
    pending_callbacks := fun _ _ => { cb := { cb := some 5, cb_args := 99 } }
    pending_callbacks_locks := c2x_locks0 }

/-- A flush submission with callback 1 and argument 7. -/
def c2x_args : SubmitArgs := { cb_fn := some 1, cb_arg := 7, cmd := .FLUSH }

/-- The lock table the claim loop returns on the counterexample. -/
def c2x_locks' : Nat → Nat → Bool :=
  ((claim_cid c2x_state.pending_callbacks_locks c2x_state.qsize
      c2x_state.sq.tail).getD (0, fun _ _ => false)).2

/-- The state after the counterexample submission. -/
def c2x_after : io_user_queue_pair :=
  ((submit_request c2x_state c2x_args).getD (0, c2x_state)).2

/-- Counterexample for C2 as stated (quantifying over every queue
size).  On the size-17000 queue the claim loop at tail 16999 fails at
(0, 16999) (expected becomes true), fails at (1, 16999) (false bit
against expected = true; expected becomes false), fails at (2, 16999)
(expected becomes true), and then `cid += _qsize` wraps the u16:
67999 mod 65536 = 2463, row 0, so the guard passes and the CAS at
(0, 2463) with expected = true succeeds true→true — the loop adopts the
already-claimed CID 2463 (its claim bit was already true, so this is
not a false→true compare-and-set), in a column different from the tail,
and the subsequent submit_request overwrites the live pending record of
slot (0, 2463): two distinct pending records have used the same CID. -/
theorem submit_request_cid_wrap_counterexample :
    claim_cid c2x_state.pending_callbacks_locks c2x_state.qsize
      c2x_state.sq.tail = some (2463, c2x_locks') ∧
    c2x_state.pending_callbacks_locks (2463 / c2x_state.qsize)
      (2463 % c2x_state.qsize) = true ∧
    ¬(2463 % c2x_state.qsize = c2x_state.sq.tail) ∧
    submit_request c2x_state c2x_args = some (1, c2x_after) ∧
    ¬(c2x_after.pending_callbacks (2463 / c2x_state.qsize)
        (2463 % c2x_state.qsize) =
      c2x_state.pending_callbacks (2463 / c2x_state.qsize)
        (2463 % c2x_state.qsize)) :=
  ⟨rfl, rfl, by decide, rfl, by decide⟩

/-- Claim C2 (amended): in every reachable state (single-producer /
single-consumer contract, calls serialized, adversarial device) of a
queue whose size keeps the four-row u16 CID window inside the u16 range
(5 * qsize ≤ 65536 — true of every configured size, admin 8 and I/O
32–64), whenever the claim loop of submit_request succeeds, the slot it
claimed had its claim bit false beforehand — the claim is a genuine
false→true compare-and-set, so no CID is ever claimed for two distinct
pending records — the claimed CID lies in the tail's own column (the
CID was only ever advanced by the queue size, row by row), its row is
below max_pending_levels, and only that one claim bit is set.  For
larger queue sizes the u16 wrap of `cid += _qsize` defeats all of this
(see the counterexample above). -/
theorem submit_request_cid_claim_safe (s : io_user_queue_pair)
    (hreach : IoReach s) (hw : 5 * s.qsize ≤ 65536) (cid : Nat)
    (locks' : Nat → Nat → Bool)
    (hc : claim_cid s.pending_callbacks_locks s.qsize s.sq.tail =
      some (cid, locks')) :
    s.pending_callbacks_locks (cid / s.qsize) (cid % s.qsize) = false ∧
    cid % s.qsize = s.sq.tail ∧
    cid / s.qsize < max_pending_levels ∧
    locks' = upd2 s.pending_callbacks_locks (cid / s.qsize) (cid % s.qsize)
      true := by
  obtain ⟨hq, ht, h1, h3⟩ := io_reach_inv s hreach hw
  obtain ⟨hfree, hcol, hrow, hL'⟩ :=
    claim_cid_sound s.pending_callbacks_locks s.qsize s.sq.tail hq ht hw h1 h3
      cid locks' hc
  refine ⟨hfree, hcol, ?_, hL'⟩
  rcases hrow with h0 | h2
  · rw [h0]; decide
  · rw [h2]; decide

/-- The fresh queue used by the C2 witness. -/
def c2_base : io_user_queue_pair := io_user_queue_pair_new 0 1 4 exNs 0

/-- The lock table produced by the claim loop on the fresh queue. -/
def c2_locks : Nat → Nat → Bool :=
  ((claim_cid c2_base.pending_callbacks_locks c2_base.qsize
      c2_base.sq.tail).getD (0, fun _ _ => false)).2

/-- Witness for (amended) C2: on the freshly created (reachable) queue
of size 4 (5 * 4 ≤ 65536) the claim loop claims cid 0, whose bit was
false, in column tail = 0, row 0. -/
theorem submit_request_cid_claim_safe_witness :
    c2_base.pending_callbacks_locks (0 / c2_base.qsize) (0 % c2_base.qsize) =
      false ∧
    0 % c2_base.qsize = c2_base.sq.tail ∧
    0 / c2_base.qsize < max_pending_levels ∧
    c2_locks = upd2 c2_base.pending_callbacks_locks (0 / c2_base.qsize)
      (0 % c2_base.qsize) true :=
  submit_request_cid_claim_safe c2_base
    (IoReach.init 0 1 4 (by decide) exNs 0) (by decide) 0 c2_locks rfl

/-- Claim C4 (code bug): the PRP assembler's capacity check is
`assert(num_of_pages / 512 == 0)`, which fails for every transfer of
512 pages or more.  A page-aligned 2 MiB transfer (exactly 512 pages,
which the claim — and the comment right above the assert, "single page
should be exactly enough to map up to 512 pages" — says is accepted) is
killed by the assertion, as is a 513-page transfer (which is rejected
by crashing, not with an EINVAL-class error); only transfers of up to
511 pages pass. -/
theorem map_prps_page_cap_off_by_one :
    map_prps 0 [] 1 0 (512 * 4096) = none ∧
    map_prps 0 [] 1 0 (513 * 4096) = none ∧
    (map_prps 0 [] 1 0 (511 * 4096)).isSome = true :=
  ⟨rfl, rfl, rfl⟩

/-- Claim C5: for a payload at virtual address v of length L spanning
exactly two pages (ceil((v+L)/P) - floor(v/P) = 2, computed here as
(v + L + (P-1))/P - v/P), and a page-aligned virtual-to-physical
translation offset, map_prps sets prp1 = phys(v) and
prp2 = phys(align_down(v + P, P)) and allocates no PRP-list page: the
pending record's list pointer stays null, and the free pool and the
allocator are untouched. -/
theorem map_prps_two_pages (delta : Nat) (pool : List Nat) (np v L : Nat)
    (hd : NVME_PAGESIZE ∣ delta)
    (hp : (v + L + (NVME_PAGESIZE - 1)) / NVME_PAGESIZE - v / NVME_PAGESIZE =
      2) :
    map_prps delta pool np v L =
      some { prp1 := v + delta
             prp2 := align_down (v + NVME_PAGESIZE) NVME_PAGESIZE + delta
             prp_list := none, list_entries := [], pool := pool
             next_page := np } := by
  obtain ⟨k, hk⟩ := hd
  subst hk
  simp only [NVME_PAGESIZE] at hp
  simp only [map_prps, align_up, align_down, NVME_PAGESIZE]
  split
  · simp only [Option.some.injEq, PrpOut.mk.injEq, and_true, true_and]
    omega
  · next hcond => exact absurd (by omega) hcond

/-- Witness for C5: an 8 KiB payload at virtual address 0 with identity
translation spans two pages; prp1 = 0, prp2 = 4096, no list page. -/
theorem map_prps_two_pages_witness :
    map_prps 0 [] 1 0 8192 =
      some { prp1 := 0 + 0
             prp2 := align_down (0 + NVME_PAGESIZE) NVME_PAGESIZE + 0
             prp_list := none, list_entries := [], pool := []
             next_page := 1 } :=
  map_prps_two_pages 0 [] 1 0 8192 ⟨0, rfl⟩ (by decide)

/-- Claim C10: the exported dispatchers osv_nvme_nv_cmd_read and
osv_nvme_nv_cmd_write return the value of submit_request XOR 1 — 0 when
the submission succeeded (submit_request returned 1) and 1 when it was
rejected for back-pressure (submit_request returned 0) — inverting
submit_request's 0/1 convention at the process boundary. -/
theorem osv_nvme_rw_cmd_xor (s : io_user_queue_pair)
    (ns payload addr len : Nat) (cb_fn : Option Nat) (cb_arg io_flags r : Nat)
    (s' : io_user_queue_pair) :
    (submit_request s
        { ns := ns, payload := payload, addr := addr, len := len
          cb_fn := cb_fn, cb_arg := cb_arg, io_flags := io_flags
          cmd := .READ } = some (r, s') →
      osv_nvme_nv_cmd_read s ns payload addr len cb_fn cb_arg io_flags =
        some (r ^^^ 1, s')) ∧
    (submit_request s
        { ns := ns, payload := payload, addr := addr, len := len
          cb_fn := cb_fn, cb_arg := cb_arg, io_flags := io_flags
          cmd := .WRITE } = some (r, s') →
      osv_nvme_nv_cmd_write s ns payload addr len cb_fn cb_arg io_flags =
        some (r ^^^ 1, s')) ∧
    (r = 1 → r ^^^ 1 = 0) ∧ (r = 0 → r ^^^ 1 = 1) := by
  refine ⟨?_, ?_, ?_, ?_⟩
  · intro h
    unfold osv_nvme_nv_cmd_read
    rw [h]
    rfl
  · intro h
    unfold osv_nvme_nv_cmd_write
    rw [h]
    rfl
  · rintro rfl; rfl
  · rintro rfl; rfl

/-- The fresh queue used by the C10 witness. -/
def c10_base : io_user_queue_pair := io_user_queue_pair_new 0 1 4 exNs 0

/-- State after a successful 4 KiB READ submission. -/
def c10r_after : io_user_queue_pair :=
  ((submit_request c10_base
      { ns := 1, payload := 0, addr := 0, len := 4096, cb_fn := some 1
        cb_arg := 0, io_flags := 0, cmd := .READ }).getD (0, c10_base)).2

/-- State after a successful 4 KiB WRITE submission. -/
def c10w_after : io_user_queue_pair :=
  ((submit_request c10_base
      { ns := 1, payload := 0, addr := 0, len := 4096, cb_fn := some 1
        cb_arg := 0, io_flags := 0, cmd := .WRITE }).getD (0, c10_base)).2

/-- Witness for C10: concrete accepted read and write submissions on
which the dispatchers return 1 XOR 1 = 0. -/
theorem osv_nvme_rw_cmd_xor_witness :
    osv_nvme_nv_cmd_read c10_base 1 0 0 4096 (some 1) 0 0 =
      some (1 ^^^ 1, c10r_after) ∧
    osv_nvme_nv_cmd_write c10_base 1 0 0 4096 (some 1) 0 0 =
      some (1 ^^^ 1, c10w_after) ∧
    ((1 : Nat) = 1 → (1 : Nat) ^^^ 1 = 0) :=
  ⟨(osv_nvme_rw_cmd_xor c10_base 1 0 0 4096 (some 1) 0 0 1 c10r_after).1 rfl,
   (osv_nvme_rw_cmd_xor c10_base 1 0 0 4096 (some 1) 0 0 1 c10w_after).2.1 rfl,
   (osv_nvme_rw_cmd_xor c10_base 1 0 0 4096 (some 1) 0 0 1 c10r_after).2.2.1⟩

end OsvNvme
